import Mathlib

/-!
Shallow embedding of the row-to-record scanning core of gocqlx (src/iterx.go):
the `Iterx` binder with its `Get`/`Select` drivers, `StructScan` row binding,
scannability classification and error propagation. Go's mutable receiver is
modelled by explicit state passing; the external cursor (`gocql.Iter`) is a
deterministic state machine over a finite list of row outcomes. Helper
functions of the repository that are referenced from iterx.go but whose
definitions are not part of the embedded sources (`baseType`, `structOnlyError`,
`missingFields`, `fieldsByTraversal`) are modelled from the specification and
marked as such in their doc comments.
-/

namespace Gocqlx

/-- A row as delivered by one cursor scan: the cell values (abstracted as
naturals, one per column). -/
abbrev Row := List Nat

/-- The error taxonomy produced by the embedded code paths. Constructors
carry exactly the data the Go error messages interpolate. -/
inductive GoError where
  /-- scanAny / scanAll: "expected a pointer but got %T". -/
  | notAPointer (typeName : String)
  /-- scanAny / scanAll: "expected a pointer but got nil". -/
  | nilPointer
  /-- baseType failure in scanAll: destination is not a pointer to a slice. -/
  | notASlice (kindName : String)
  /-- structOnlyError(base): struct-only requested on a non-record type. -/
  | structOnlyMisuse (typeName : String)
  /-- "expected 1 column in result while scanning scannable type %s but got %d". -/
  | columnCountMismatch (kindName : String) (cols : Nat)
  /-- StructScan guard: "must pass a pointer, not a value, to StructScan destination". -/
  | mustPassPointer
  /-- "missing destination name %q in %T". -/
  | missingField (column : String) (destType : String)
  /-- fieldsByTraversal failure: destination is not a usable record reference. -/
  | notAStruct
  /-- An error returned by the underlying cursor at Close (driver-level). -/
  | driverClose (msg : String)
  /-- gocql.ErrNotFound. -/
  | notFound
  deriving DecidableEq, Repr

/-- A fragment of Go's type universe sufficient for the scanning code:
pointers, slices, struct (record) types and scalar kinds. The two Booleans
record whether a pointer to the type implements gocql.Unmarshaler
respectively gocql.UDTUnmarshaler. -/
inductive GoType where
  | ptr (elem : GoType)
  | slice (implU implUDT : Bool) (elem : GoType)
  | structT (name : String) (implU implUDT : Bool)
  | scalar (kindName : String) (implU implUDT : Bool)
  deriving DecidableEq, Repr

/-- reflect.Kind rendered as the string Go prints with %s. -/
def GoType.kindName : GoType → String
  | .ptr _ => "ptr"
  | .slice _ _ _ => "slice"
  | .structT _ _ _ => "struct"
  | .scalar k _ _ => k

/-- The %T rendering of a type. -/
def GoType.typeName : GoType → String
  | .ptr t => "*" ++ t.typeName
  | .slice _ _ t => "[]" ++ t.typeName
  | .structT n _ _ => n
  | .scalar k _ _ => k

/-- Kind() == reflect.Struct. -/
def GoType.isStruct : GoType → Bool
  | .structT _ _ _ => true
  | _ => false

/-- Kind() == reflect.Ptr. -/
def GoType.isPtr : GoType → Bool
  | .ptr _ => true
  | _ => false

/-- Kind() == reflect.Slice. -/
def GoType.isSlice : GoType → Bool
  | .slice _ _ _ => true
  | _ => false

/-- reflect.PtrTo(t).Implements(unmarshallerInterface). -/
def GoType.implUnmarshaller : GoType → Bool
  | .ptr _ => false
  | .slice u _ _ => u
  | .structT _ u _ => u
  | .scalar _ u _ => u

/-- reflect.PtrTo(t).Implements(udtUnmarshallerInterface). -/
def GoType.implUDTUnmarshaller : GoType → Bool
  | .ptr _ => false
  | .slice _ u _ => u
  | .structT _ _ u => u
  | .scalar _ _ u => u

/-- reflectx.Deref: one-level pointer dereference (spec 4.3 step 1:
"Dereference dest one level"). -/
def deref : GoType → GoType
  | .ptr t => t
  | t => t

/-- Element type of a slice type. -/
def GoType.sliceElem : GoType → GoType
  | .slice _ _ e => e
  | t => t

/-- The reflectx.Mapper collaborator (the Field Resolver of the spec):
`typeMapIndexLen t` is len(Mapper.TypeMap(t).Index) — the number of mapped
fields — and `traversalsByName t cols` is Mapper.TraversalsByName(t, cols),
one traversal path per column, the empty path meaning "no matching field". -/
structure Mapper where
  typeMapIndexLen : GoType → Nat
  traversalsByName : GoType → List String → List (List Nat)

/-- The external cursor (gocql.Iter): ordered column names, the driver's
row-count value NumRows(), the finite list of rows still deliverable by Scan,
the error Close will report, and instrumentation counters for Scan and Close
invocations. -/
structure Iter where
  columns : List String
  numRows : Nat
  scans : List Row
  closeErr : Option String
  scanCalls : Nat := 0
  closeCalls : Nat := 0
  deriving DecidableEq, Repr

/-- gocql.Iter.Scan: pops the next row if one remains (true = row delivered,
false = exhausted or failed). -/
def Iter.scan (it : Iter) : Option Row × Iter :=
  match it.scans with
  | [] => (none, { it with scanCalls := it.scanCalls + 1 })
  | r :: rest => (some r, { it with scans := rest, scanCalls := it.scanCalls + 1 })

/-- gocql.Iter.Close: reports the stored driver error, if any. -/
def Iter.close (it : Iter) : Option GoError × Iter :=
  (it.closeErr.map GoError.driverClose, { it with closeCalls := it.closeCalls + 1 })

/-- A Go interface value handed to the scanning API: its dynamic type and
whether it is a nil reference. -/
structure GoValue where
  type : GoType
  isNil : Bool
  deriving DecidableEq, Repr

/-- The Iterx binder state (iterx.go:21). `lenient` is the Go field set by
the method at iterx.go:38 (the flag that tolerates unmapped columns; named
`lenient` here because the Go spelling is a reserved token in Lean).
`valuesLen` models the length of the cached `values` buffer; `resolveCount`
instruments how many times Mapper.TraversalsByName has been invoked. -/
structure Iterx where
  iter : Iter
  mapper : Mapper
  lenient : Bool := false
  structOnly : Bool := false
  started : Bool := false
  err : Option GoError := none
  fields : List (List Nat) := []
  valuesLen : Nat := 0
  resolveCount : Nat := 0

/-- iterx.go:38 — the setter that switches the binder to lenient matching
(ignore unmapped columns) and returns the receiver. -/
def Iterx.setLenient (ix : Iterx) : Iterx := { ix with lenient := true }

/-- iterx.go:46 — StructOnly(): force field-by-field scanning and return the
receiver. -/
def Iterx.setStructOnly (ix : Iterx) : Iterx := { ix with structOnly := true }

/-- iterx.go:76 isScannable: t is scannable if a pointer to it implements one
of the unmarshaller interfaces, or it is not a struct, or the Mapper reports
zero mapped fields for it. -/
def isScannable (m : Mapper) (t : GoType) : Bool :=
  if t.implUnmarshaller || t.implUDTUnmarshaller then true
  else if !t.isStruct then true
  else m.typeMapIndexLen t == 0

/-- Modelled from the spec: `structOnlyError` (called at iterx.go:105 and
iterx.go:170, defined outside the embedded sources) builds the caller error
for struct-only misuse — spec 4.1: "fails with StructOnlyMisuse naming T". -/
def structOnlyError (t : GoType) : GoError := .structOnlyMisuse t.typeName

/-- The struct-only override block that scanAny (iterx.go:101–108) and
scanAll (iterx.go:166–173) contain verbatim: when structOnly is set and the
verdict is scannable, a struct base is forced to record-mapped scanning and
a non-struct base is a caller error. -/
def structOnlyAdjust (structOnly : Bool) (base : GoType) (scannable : Bool) :
    Except GoError Bool :=
  if structOnly && scannable then
    if base.isStruct then .ok false
    else .error (structOnlyError base)
  else .ok scannable

/-- Modelled from the spec: `missingFields` (called at iterx.go:242, defined
outside the embedded sources) finds the first column index whose traversal
path is absent — spec 4.2: "if any column's path is absent, fail with
MissingField naming the first such column". -/
def missingFields (fs : List (List Nat)) : Option Nat :=
  fs.findIdx? (fun f => f.isEmpty)

/-- Modelled from the spec: `fieldsByTraversal` (called at iterx.go:251,
defined outside the embedded sources) re-points each value slot "to the
address of the corresponding field inside dest" (spec 4.2 step 3); a
destination that is not a non-nil reference to a record has no field
addresses to point at, so the call fails. -/
def fieldsByTraversal (dest : GoValue) : Option GoError :=
  if dest.isNil || !(deref dest.type).isStruct then some .notAStruct else none

/-- The `if !iter.started` block of StructScan (iterx.go:235–249): compute
the traversal plan, reject the first unmapped column unless lenient, size the
value buffer and transition to started. The Boolean is false on the early
`return false`; note the computed plan is stored in `fields` even on that
failure, exactly as the Go assignment at iterx.go:239 precedes the check. -/
def structScanStart (ix : Iterx) (dest : GoValue) : Bool × Iterx :=
  if !ix.started then
    let columns := ix.iter.columns
    let fs := ix.mapper.traversalsByName dest.type columns
    let ix1 := { ix with fields := fs, resolveCount := ix.resolveCount + 1 }
    if !ix1.lenient then
      match missingFields fs with
      | some f =>
        (false, { ix1 with err := some (.missingField (columns.getD f "") dest.type.typeName) })
      | none => (true, { ix1 with valuesLen := columns.length, started := true })
    else (true, { ix1 with valuesLen := columns.length, started := true })
  else (true, ix)

/-- iterx.go:228 StructScan: guard that dest is a pointer value, run the
one-time start block, re-point the value slots and scan one row. The first
component is the row delivered into dest (`none` models the `false` return). -/
def structScan (ix : Iterx) (dest : GoValue) : Option Row × Iterx :=
  if !dest.type.isPtr then
    (none, { ix with err := some .mustPassPointer })
  else
    match structScanStart ix dest with
    | (false, ix1) => (none, ix1)
    | (true, ix1) =>
      match fieldsByTraversal dest with
      | some e => (none, { ix1 with err := some e })
      | none => (ix1.iter.scan.1, { ix1 with iter := ix1.iter.scan.2 })

/-- iterx.go:87 scanAny: validate the destination, classify it, enforce the
single-column requirement for scannable destinations, and scan one row either
directly or through StructScan. The first component is the row delivered into
dest (`none` models the `false` return). -/
def scanAny (ix : Iterx) (dest : GoValue) : Option Row × Iterx :=
  if !dest.type.isPtr then
    (none, { ix with err := some (.notAPointer dest.type.typeName) })
  else if dest.isNil then
    (none, { ix with err := some .nilPointer })
  else
    let base := deref dest.type
    match structOnlyAdjust ix.structOnly base (isScannable ix.mapper base) with
    | .error e => (none, { ix with err := some e })
    | .ok scannable =>
      if scannable && decide (ix.iter.columns.length > 1) then
        (none, { ix with err := some (.columnCountMismatch base.kindName ix.iter.columns.length) })
      else if scannable then (ix.iter.scan.1, { ix with iter := ix.iter.scan.2 })
      else structScan ix dest

/-- One iteration body of the scanAll loop (iterx.go:189–196): allocate a
fresh element pointer `vp = reflect.New(base)` and scan into it, through
StructScan for record-mapped elements and directly otherwise. -/
def scanStep (scannable : Bool) (base : GoType) (ix : Iterx) : Option Row × Iterx :=
  if !scannable then structScan ix ⟨.ptr base, false⟩
  else (ix.iter.scan.1, { ix with iter := ix.iter.scan.2 })

/-- The scan loop of scanAll (iterx.go:187–212). `acc = none` models
`alloc == false`; on the first successful row the accumulator is created with
the capacity hint `iter.NumRows()` (recorded as the first component) and rows
are appended until a scan fails. Fuel bounds the recursion; scanAll supplies
`scans.length + 1`, which can never be exhausted because every successful
step consumes one pending row. -/
def scanAllLoop (fuel : Nat) (scannable : Bool) (base : GoType)
    (ix : Iterx) (acc : Option (Nat × List Row)) : Iterx × Option (Nat × List Row) :=
  match fuel with
  | 0 => (ix, acc)
  | fuel + 1 =>
    let ix1 := (scanStep scannable base ix).2
    match (scanStep scannable base ix).1 with
    | none => (ix1, acc)
    | some r =>
      let acc1 := match acc with
        | none => (ix1.iter.numRows, ([] : List Row))
        | some a => a
      scanAllLoop fuel scannable base ix1 (some (acc1.1, acc1.2 ++ [r]))

/-- Outcome of scanAll: the Go boolean return, the binder state, the slice
value held by the destination afterwards, and the capacity passed to
reflect.MakeSlice (`none` when no allocation happened, in which case the
destination still holds its original value). -/
structure ScanAllResult where
  ok : Bool
  ix : Iterx
  dest : List Row
  allocCap : Option Nat

/-- Modelled from the spec: `baseType` (called at iterx.go:156, defined
outside the embedded sources) dereferences the destination type one level and
requires a growable ordered sequence (slice), anything else being an invalid
destination (spec 4.4 step 1). -/
def baseType (t : GoType) : Except GoError GoType :=
  let b := deref t
  if b.isSlice then .ok b else .error (.notASlice b.kindName)

/-- iterx.go:143 scanAll: validate the destination as a non-nil pointer to a
slice, classify the element type, enforce the single-column requirement for
scannable elements, run the scan loop, and overwrite the destination only if
the accumulator was allocated. `dslice` is the slice value the destination
pointer holds at entry; whether elements are appended as pointers or values
(iterx.go:207–211) does not change their contents, which is all this model
records. -/
def scanAll (ix : Iterx) (dest : GoValue) (dslice : List Row) : ScanAllResult :=
  if !dest.type.isPtr then
    ⟨false, { ix with err := some (.notAPointer dest.type.typeName) }, dslice, none⟩
  else if dest.isNil then
    ⟨false, { ix with err := some .nilPointer }, dslice, none⟩
  else
    match baseType dest.type with
    | .error e => ⟨false, { ix with err := some e }, dslice, none⟩
    | .ok slice =>
      let base := deref slice.sliceElem
      match structOnlyAdjust ix.structOnly base (isScannable ix.mapper base) with
      | .error e => ⟨false, { ix with err := some e }, dslice, none⟩
      | .ok scannable =>
        if scannable && decide (ix.iter.columns.length > 1) then
          ⟨false, { ix with err := some (.columnCountMismatch base.kindName ix.iter.columns.length) }, dslice, none⟩
        else
          match scanAllLoop (ix.iter.scans.length + 1) scannable base ix none with
          | (ix1, none) => ⟨true, ix1, dslice, none⟩
          | (ix1, some (cap, v)) => ⟨true, ix1, v, some cap⟩

/-- iterx.go:270 Close: close the cursor and record its error only when no
error was recorded earlier; return the merged error. -/
def Iterx.close (ix : Iterx) : Option GoError × Iterx :=
  let merged := match ix.err with | none => ix.iter.close.1 | some pe => some pe
  (merged, { ix with iter := ix.iter.close.2, err := merged })

/-- iterx.go:279 checkErrAndNotFound: a recorded error takes priority;
otherwise a zero-row result is ErrNotFound. -/
def checkErrAndNotFound (ix : Iterx) : Option GoError :=
  match ix.err with
  | some e => some e
  | none => if ix.iter.numRows = 0 then some .notFound else none

/-- iterx.go:64 Get: scan one row, close, and report via checkErrAndNotFound. -/
def get (ix : Iterx) (dest : GoValue) : Option GoError × Iterx :=
  let ix1 := (scanAny ix dest).2
  let ix2 := ix1.close.2
  (checkErrAndNotFound ix2, ix2)

/-- Outcome of Select: the returned error, the binder state, the slice value
held by the destination afterwards, and the allocation capacity as in
ScanAllResult. -/
structure SelectResult where
  err : Option GoError
  ix : Iterx
  dest : List Row
  allocCap : Option Nat

/-- iterx.go:136 Select: scan all rows, close, and return the recorded error
(ErrNotFound is never produced here). -/
def selectAll (ix : Iterx) (dest : GoValue) (dslice : List Row) : SelectResult :=
  let r := scanAll ix dest dslice
  let ix2 := r.ix.close.2
  ⟨ix2.err, ix2, r.dest, r.allocCap⟩

/-- n successive StructScan calls with the same destination, as a manual
iteration loop would perform them. -/
def structScanN : Nat → Iterx → GoValue → Iterx
  | 0, ix, _ => ix
  | n + 1, ix, dest => structScanN n (structScan ix dest).2 dest


/-- Cursor fields that row scanning never changes. -/
def IterFrame (a b : Iter) : Prop :=
  a.columns = b.columns ∧ a.numRows = b.numRows ∧ a.closeErr = b.closeErr ∧
    a.closeCalls = b.closeCalls

def exMapperAll : Mapper := ⟨fun _ => 1, fun _ cols => cols.map (fun _ => [0])⟩

def exPerson : GoType := .structT "Person" false false

def exIterEmpty : Iter := { columns := ["first_name"], numRows := 0, scans := [], closeErr := none }

def exBinderEmpty : Iterx := { iter := exIterEmpty, mapper := exMapperAll }

def exDestPerson : GoValue := ⟨.ptr exPerson, false⟩

def exDestPersonSlice : GoValue := ⟨.ptr (.slice false false exPerson), false⟩

def exMapperNone : Mapper := ⟨fun _ => 0, fun _ cols => cols.map (fun _ => [])⟩

def exEmptyStruct : GoType := .structT "EmptyT" false false

def exIterOneCol : Iter := { columns := ["c"], numRows := 1, scans := [[5]], closeErr := none }

def exBinderStructOnly : Iterx :=
  { iter := exIterOneCol, mapper := exMapperNone, structOnly := true }

def exInt : GoType := .scalar "int" false false

def exBinderSO2 : Iterx := { iter := exIterOneCol, mapper := exMapperAll, structOnly := true }

def exDestInt : GoValue := ⟨.ptr exInt, false⟩

def exDestIntSlice : GoValue := ⟨.ptr (.slice false false exInt), false⟩

def exIterRows : Iter := { columns := ["first_name"], numRows := 2, scans := [[1], [2]], closeErr := none }

def exBinderRows : Iterx := { iter := exIterRows, mapper := exMapperAll }

def exBinderMissing : Iterx := { iter := exIterOneCol, mapper := exMapperNone }

def exIterRowsErr : Iter :=
  { columns := ["first_name"], numRows := 2, scans := [[1], [2]], closeErr := some "boom" }

def exBinderRowsErr : Iterx := { iter := exIterRowsErr, mapper := exMapperAll }

def exIterTwoCols : Iter :=
  { columns := ["a", "b"], numRows := 1, scans := [[1, 2]], closeErr := none }

def exBinderTwoCols : Iterx :=
  { iter := exIterTwoCols, mapper := exMapperAll, lenient := true }

theorem iterFrame_refl (a : Iter) : IterFrame a a := ⟨rfl, rfl, rfl, rfl⟩

theorem iterFrame_trans {a b c : Iter} (h1 : IterFrame a b) (h2 : IterFrame b c) :
    IterFrame a c :=
  ⟨h1.1.trans h2.1, h1.2.1.trans h2.2.1, h1.2.2.1.trans h2.2.2.1, h1.2.2.2.trans h2.2.2.2⟩

theorem scan_frame (it : Iter) : IterFrame it.scan.2 it := by
  unfold Iter.scan
  split <;> exact ⟨rfl, rfl, rfl, rfl⟩

theorem structScanStart_iter (ix : Iterx) (d : GoValue) :
    (structScanStart ix d).2.iter = ix.iter := by
  unfold structScanStart
  dsimp only
  split
  · split
    · split <;> rfl
    · rfl
  · rfl

theorem structScan_frame (ix : Iterx) (d : GoValue) :
    IterFrame (structScan ix d).2.iter ix.iter := by
  unfold structScan
  split
  · exact iterFrame_refl _
  · split
    · next ix1 h =>
      have h2 := structScanStart_iter ix d
      rw [h] at h2
      dsimp at h2 ⊢
      rw [h2]; exact iterFrame_refl _
    · next ix1 h =>
      have h2 := structScanStart_iter ix d
      rw [h] at h2
      dsimp at h2
      split
      · dsimp only; rw [h2]; exact iterFrame_refl _
      · dsimp only
        rw [← h2]
        exact scan_frame ix1.iter

theorem scanAny_frame (ix : Iterx) (d : GoValue) :
    IterFrame (scanAny ix d).2.iter ix.iter := by
  unfold scanAny
  split
  · exact iterFrame_refl _
  · split
    · exact iterFrame_refl _
    · dsimp only
      split
      · exact iterFrame_refl _
      · split
        · exact iterFrame_refl _
        · split
          · exact scan_frame ix.iter
          · exact structScan_frame ix d

theorem scanStep_frame (s : Bool) (b : GoType) (ix : Iterx) :
    IterFrame (scanStep s b ix).2.iter ix.iter := by
  unfold scanStep
  split
  · exact structScan_frame ix _
  · exact scan_frame ix.iter

theorem scanAllLoop_frame (fuel : Nat) (s : Bool) (b : GoType) (ix : Iterx)
    (acc : Option (Nat × List Row)) :
    IterFrame (scanAllLoop fuel s b ix acc).1.iter ix.iter := by
  induction fuel generalizing ix acc with
  | zero => exact iterFrame_refl _
  | succ n ih =>
    unfold scanAllLoop
    dsimp only
    split
    · exact scanStep_frame s b ix
    · exact iterFrame_trans (ih _ _) (scanStep_frame s b ix)

theorem scanAll_frame (ix : Iterx) (d : GoValue) (ds : List Row) :
    IterFrame (scanAll ix d ds).ix.iter ix.iter := by
  unfold scanAll
  split
  · exact iterFrame_refl _
  · split
    · exact iterFrame_refl _
    · split
      · exact iterFrame_refl _
      · next sl hsl =>
        dsimp only
        split
        · exact iterFrame_refl _
        · next scannable hadj =>
          split
          · exact iterFrame_refl _
          · split
            · next ix1 h =>
              have h5 := scanAllLoop_frame (ix.iter.scans.length + 1) scannable
                (deref sl.sliceElem) ix none
              rw [h] at h5
              exact h5
            · next ix1 cap v h =>
              have h5 := scanAllLoop_frame (ix.iter.scans.length + 1) scannable
                (deref sl.sliceElem) ix none
              rw [h] at h5
              exact h5

theorem structScanStart_true_err {ix : Iterx} {d : GoValue} {j : Iterx}
    (h : structScanStart ix d = (true, j)) : j.err = ix.err := by
  unfold structScanStart at h
  dsimp only at h
  split at h
  · split at h
    · split at h
      · simp at h
      · injection h with h1 h2; subst h2; rfl
    · injection h with h1 h2; subst h2; rfl
  · injection h with h1 h2; subst h2; rfl

theorem structScanStart_false_err {ix : Iterx} {d : GoValue} {j : Iterx}
    (h : structScanStart ix d = (false, j)) :
    ∃ c, j.err = some (.missingField c d.type.typeName) := by
  unfold structScanStart at h
  dsimp only at h
  split at h
  · split at h
    · split at h
      · next f hf =>
        injection h with h1 h2
        subst h2
        exact ⟨_, rfl⟩
      · simp at h
    · simp at h
  · simp at h

theorem fieldsByTraversal_some {d : GoValue} {e : GoError}
    (h : fieldsByTraversal d = some e) : e = .notAStruct := by
  unfold fieldsByTraversal at h
  split at h
  · injection h with h1; exact h1.symm
  · simp at h

theorem structScan_err_cases (ix : Iterx) (d : GoValue) (P : Option GoError → Prop)
    (h0 : P ix.err)
    (h1 : P (some .mustPassPointer))
    (h2 : ∀ c t, P (some (.missingField c t)))
    (h3 : P (some .notAStruct)) :
    P (structScan ix d).2.err := by
  unfold structScan
  split
  · exact h1
  · split
    · next ix1 h =>
      obtain ⟨c, hc⟩ := structScanStart_false_err h
      dsimp only
      rw [hc]
      exact h2 c _
    · next ix1 h =>
      have he := structScanStart_true_err h
      split
      · next e hf =>
        dsimp only
        rw [fieldsByTraversal_some hf]
        exact h3
      · dsimp only
        rw [he]
        exact h0

theorem structOnlyAdjust_error {so : Bool} {b : GoType} {s : Bool} {e : GoError}
    (h : structOnlyAdjust so b s = .error e) : e = .structOnlyMisuse b.typeName := by
  unfold structOnlyAdjust at h
  split at h
  · split at h
    · simp at h
    · injection h with h1; exact h1.symm
  · simp at h

theorem baseType_error {t : GoType} {e : GoError}
    (h : baseType t = .error e) : e = .notASlice (deref t).kindName := by
  unfold baseType at h
  dsimp only at h
  split at h
  · simp at h
  · injection h with h1; exact h1.symm

theorem scanAny_err_cases (ix : Iterx) (d : GoValue) (P : Option GoError → Prop)
    (h0 : P ix.err)
    (hp : ∀ t, P (some (.notAPointer t)))
    (hn : P (some .nilPointer))
    (hso : ∀ t, P (some (.structOnlyMisuse t)))
    (hcc : ∀ k n, P (some (.columnCountMismatch k n)))
    (h1 : P (some .mustPassPointer))
    (h2 : ∀ c t, P (some (.missingField c t)))
    (h3 : P (some .notAStruct)) :
    P (scanAny ix d).2.err := by
  unfold scanAny
  split
  · exact hp _
  · split
    · exact hn
    · dsimp only
      split
      · next e he =>
        rw [structOnlyAdjust_error he]
        exact hso _
      · split
        · exact hcc _ _
        · split
          · exact h0
          · exact structScan_err_cases ix d P h0 h1 h2 h3

theorem scanStep_err_cases (s : Bool) (b : GoType) (ix : Iterx) (P : Option GoError → Prop)
    (h0 : P ix.err)
    (h1 : P (some .mustPassPointer))
    (h2 : ∀ c t, P (some (.missingField c t)))
    (h3 : P (some .notAStruct)) :
    P (scanStep s b ix).2.err := by
  unfold scanStep
  split
  · exact structScan_err_cases ix _ P h0 h1 h2 h3
  · exact h0

theorem scanAllLoop_err_cases (fuel : Nat) (s : Bool) (b : GoType) (ix : Iterx)
    (acc : Option (Nat × List Row)) (P : Option GoError → Prop)
    (h0 : P ix.err)
    (h1 : P (some .mustPassPointer))
    (h2 : ∀ c t, P (some (.missingField c t)))
    (h3 : P (some .notAStruct)) :
    P (scanAllLoop fuel s b ix acc).1.err := by
  induction fuel generalizing ix acc with
  | zero => exact h0
  | succ n ih =>
    unfold scanAllLoop
    dsimp only
    split
    · exact scanStep_err_cases s b ix P h0 h1 h2 h3
    · exact ih _ _ (scanStep_err_cases s b ix P h0 h1 h2 h3)

theorem scanAll_err_cases (ix : Iterx) (d : GoValue) (ds : List Row) (P : Option GoError → Prop)
    (h0 : P ix.err)
    (hp : ∀ t, P (some (.notAPointer t)))
    (hn : P (some .nilPointer))
    (hsl : ∀ k, P (some (.notASlice k)))
    (hso : ∀ t, P (some (.structOnlyMisuse t)))
    (hcc : ∀ k n, P (some (.columnCountMismatch k n)))
    (h1 : P (some .mustPassPointer))
    (h2 : ∀ c t, P (some (.missingField c t)))
    (h3 : P (some .notAStruct)) :
    P (scanAll ix d ds).ix.err := by
  unfold scanAll
  split
  · exact hp _
  · split
    · exact hn
    · split
      · next e he =>
        rw [baseType_error he]
        exact hsl _
      · next sl hb =>
        dsimp only
        split
        · next e he =>
          rw [structOnlyAdjust_error he]
          exact hso _
        · next scannable hadj =>
          split
          · exact hcc _ _
          · split
            · next ix1 h =>
              have h5 := scanAllLoop_err_cases (ix.iter.scans.length + 1) scannable
                (deref sl.sliceElem) ix none P h0 h1 h2 h3
              rw [h] at h5
              exact h5
            · next ix1 cap v h =>
              have h5 := scanAllLoop_err_cases (ix.iter.scans.length + 1) scannable
                (deref sl.sliceElem) ix none P h0 h1 h2 h3
              rw [h] at h5
              exact h5

theorem structScanStart_of_started {ix : Iterx} (d : GoValue) (h : ix.started = true) :
    structScanStart ix d = (true, ix) := by
  unfold structScanStart
  simp [h]

theorem structScan_of_started {ix : Iterx} (d : GoValue) (h : ix.started = true) :
    (structScan ix d).2.started = true ∧
    (structScan ix d).2.resolveCount = ix.resolveCount ∧
    (structScan ix d).2.fields = ix.fields := by
  unfold structScan
  split
  · exact ⟨h, rfl, rfl⟩
  · rw [structScanStart_of_started d h]
    dsimp only
    split
    · exact ⟨h, rfl, rfl⟩
    · exact ⟨h, rfl, rfl⟩

theorem structScanStart_started_mono {ix : Iterx} (d : GoValue) (h : ix.started = true) :
    (structScanStart ix d).2.started = true := by
  rw [structScanStart_of_started d h]
  exact h

theorem structScan_resolve_first {ix : Iterx} (d : GoValue) (h : ix.started = false)
    (hp : d.type.isPtr = true) :
    (structScan ix d).2.resolveCount = ix.resolveCount + 1 := by
  have key : ∀ j b, structScanStart ix d = (b, j) → j.resolveCount = ix.resolveCount + 1 := by
    intro j b hj
    unfold structScanStart at hj
    rw [h] at hj
    dsimp only at hj
    split at hj
    · split at hj
      · split at hj
        · injection hj with h1 h2; subst h2; rfl
        · injection hj with h1 h2; subst h2; rfl
      · injection hj with h1 h2; subst h2; rfl
    · next hc => simp at hc
  unfold structScan
  split
  · next hcond => rw [hp] at hcond; simp at hcond
  · split
    · next ix1 hj => exact key ix1 false hj
    · next ix1 hj =>
      split
      · exact key ix1 true hj
      · exact key ix1 true hj

theorem scanAny_started_mono {ix : Iterx} (d : GoValue) (h : ix.started = true) :
    (scanAny ix d).2.started = true := by
  unfold scanAny
  split
  · exact h
  · split
    · exact h
    · dsimp only
      split
      · exact h
      · split
        · exact h
        · split
          · exact h
          · exact (structScan_of_started d h).1

theorem close_started (ix : Iterx) : ix.close.2.started = ix.started := rfl

theorem close_resolveCount (ix : Iterx) : ix.close.2.resolveCount = ix.resolveCount := rfl

theorem structScanN_of_started (n : Nat) (ix : Iterx) (d : GoValue) (h : ix.started = true) :
    (structScanN n ix d).started = true ∧
    (structScanN n ix d).resolveCount = ix.resolveCount := by
  induction n generalizing ix with
  | zero => exact ⟨h, rfl⟩
  | succ n ih =>
    unfold structScanN
    have h1 := structScan_of_started d h
    obtain ⟨r1, r2⟩ := ih (structScan ix d).2 h1.1
    exact ⟨r1, r2.trans h1.2.1⟩

theorem scan_fst_nil {it : Iter} (h : it.scans = []) : it.scan.1 = none := by
  unfold Iter.scan
  rw [h]

theorem scan_fst_cons {it : Iter} {r : Row} {rest : List Row} (h : it.scans = r :: rest) :
    it.scan.1 = some r ∧ it.scan.2.scans = rest := by
  unfold Iter.scan
  rw [h]
  exact ⟨rfl, rfl⟩

theorem structScan_none_of_nil {ix : Iterx} (d : GoValue) (h : ix.iter.scans = []) :
    (structScan ix d).1 = none := by
  unfold structScan
  split
  · rfl
  · split
    · rfl
    · next ix1 hj =>
      split
      · rfl
      · dsimp only
        have hi := structScanStart_iter ix d
        rw [hj] at hi
        dsimp at hi
        apply scan_fst_nil
        rw [hi]
        exact h

theorem scanStep_none_of_nil {s : Bool} {b : GoType} {ix : Iterx}
    (h : ix.iter.scans = []) : (scanStep s b ix).1 = none := by
  unfold scanStep
  split
  · exact structScan_none_of_nil _ h
  · exact scan_fst_nil h

theorem scanAllLoop_nil {fuel : Nat} {s : Bool} {b : GoType} {ix : Iterx}
    {acc : Option (Nat × List Row)} (h : ix.iter.scans = []) :
    scanAllLoop (fuel + 1) s b ix acc = ((scanStep s b ix).2, acc) := by
  unfold scanAllLoop
  dsimp only
  split
  · rfl
  · next r hr => rw [scanStep_none_of_nil h] at hr; cases hr

theorem scanAllLoop_cap_const (fuel : Nat) (s : Bool) (b : GoType) (ix : Iterx)
    (c : Nat) (v : List Row) :
    (scanAllLoop fuel s b ix (some (c, v))).2.map Prod.fst = some c := by
  induction fuel generalizing ix v with
  | zero => rfl
  | succ n ih =>
    unfold scanAllLoop
    dsimp only
    split
    · rfl
    · exact ih _ _

theorem scanAllLoop_alloc_cap {fuel : Nat} {s : Bool} {b : GoType} {ix : Iterx} {r : Row}
    (h : (scanStep s b ix).1 = some r) :
    (scanAllLoop (fuel + 1) s b ix none).2.map Prod.fst =
      some (scanStep s b ix).2.iter.numRows := by
  unfold scanAllLoop
  dsimp only
  split
  · next hr => rw [h] at hr; cases hr
  · next r1 hr =>
    exact scanAllLoop_cap_const fuel s b (scanStep s b ix).2 _ _

/-- The scannable branch of the loop never records an error and appends every
remaining row. -/
theorem scanAllLoop_scannable_err (fuel : Nat) (b : GoType) (ix : Iterx)
    (acc : Option (Nat × List Row)) :
    (scanAllLoop fuel true b ix acc).1.err = ix.err := by
  induction fuel generalizing ix acc with
  | zero => rfl
  | succ n ih =>
    unfold scanAllLoop
    dsimp only
    split
    · rfl
    · exact ih _ _

theorem scanAllLoop_scannable_acc (fuel : Nat) (b : GoType) (ix : Iterx)
    (c : Nat) (v : List Row) (h : ix.iter.scans.length < fuel) :
    (scanAllLoop fuel true b ix (some (c, v))).2 = some (c, v ++ ix.iter.scans) := by
  induction fuel generalizing ix v with
  | zero => cases h
  | succ n ih =>
    cases hs : ix.iter.scans with
    | nil =>
      rw [scanAllLoop_nil hs]
      simp [hs]
    | cons r rest =>
      unfold scanAllLoop
      dsimp only
      have hstep : (scanStep true b ix).1 = some r ∧ (scanStep true b ix).2.iter.scans = rest := by
        unfold scanStep
        simp only [Bool.not_true, if_neg]
        constructor
        · exact (scan_fst_cons hs).1
        · exact (scan_fst_cons hs).2
      split
      · next hr => rw [hstep.1] at hr; cases hr
      · next r1 hr =>
        rw [hstep.1] at hr
        injection hr with hr1
        subst hr1
        have hlen : (scanStep true b ix).2.iter.scans.length < n := by
          rw [hstep.2]
          rw [hs] at h
          simpa using Nat.lt_of_succ_lt_succ h
        rw [ih _ _ hlen]
        rw [hstep.2]
        simp [hs]

theorem scanStep_scannable_frame (b : GoType) (ix : Iterx) :
    (scanStep true b ix).2.iter.numRows = ix.iter.numRows ∧
    (scanStep true b ix).2.err = ix.err := by
  constructor
  · exact (scanStep_frame true b ix).2.1
  · unfold scanStep
    simp

theorem scanAllLoop_scannable_from_none (fuel : Nat) (b : GoType) (ix : Iterx)
    (h : ix.iter.scans.length < fuel) :
    (scanAllLoop fuel true b ix none).2 =
      (match ix.iter.scans with
       | [] => none
       | _ :: _ => some (ix.iter.numRows, ix.iter.scans)) := by
  cases fuel with
  | zero => cases h
  | succ n =>
    cases hs : ix.iter.scans with
    | nil => rw [scanAllLoop_nil hs]
    | cons r rest =>
      have hstep : (scanStep true b ix).1 = some r ∧ (scanStep true b ix).2.iter.scans = rest := by
        unfold scanStep
        simp only [Bool.not_true, if_neg]
        exact ⟨(scan_fst_cons hs).1, (scan_fst_cons hs).2⟩
      unfold scanAllLoop
      dsimp only
      split
      · next hr => rw [hstep.1] at hr; cases hr
      · next r1 hr =>
        rw [hstep.1] at hr
        injection hr with hr1
        subst hr1
        have hlen : (scanStep true b ix).2.iter.scans.length < n := by
          rw [hstep.2]
          rw [hs] at h
          simpa using Nat.lt_of_succ_lt_succ h
        rw [scanAllLoop_scannable_acc n b _ _ _ hlen]
        rw [hstep.2, (scanStep_scannable_frame b ix).1]
        simp

/-- scanAll returns false exactly on a pre-loop validation failure, and then
it has touched neither the destination nor the cursor· -/
theorem scanAll_false_frame (ix : Iterx) (d : GoValue) (ds : List Row)
    (h : (scanAll ix d ds).ok = false) :
    (scanAll ix d ds).dest = ds ∧ (scanAll ix d ds).allocCap = none ∧
      (scanAll ix d ds).ix.iter = ix.iter := by
  generalize hX : scanAll ix d ds = X at h ⊢
  unfold scanAll at hX
  split at hX
  · subst hX; exact ⟨rfl, rfl, rfl⟩
  · split at hX
    · subst hX; exact ⟨rfl, rfl, rfl⟩
    · split at hX
      · subst hX; exact ⟨rfl, rfl, rfl⟩
      · next sl hsl =>
        dsimp only at hX
        split at hX
        · subst hX; exact ⟨rfl, rfl, rfl⟩
        · next scannable hadj =>
          split at hX
          · subst hX; exact ⟨rfl, rfl, rfl⟩
          · split at hX
            · subst hX; simp at h
            · subst hX; simp at h

/-- Full characterization of scanAll on a valid pointer-to-slice destination
whose element type is (after the struct-only adjustment) scannable, with at
most one result column: every pending row is appended, the error state is
untouched, and the accumulator is allocated (with the NumRows capacity hint)
only when at least one row was scanned. -/
theorem scanAll_scannable (ix : Iterx) (d : GoValue) (ds : List Row) (sl : GoType)
    (hp : d.type.isPtr = true) (hn : d.isNil = false)
    (hb : baseType d.type = .ok sl)
    (hadj : structOnlyAdjust ix.structOnly (deref sl.sliceElem)
      (isScannable ix.mapper (deref sl.sliceElem)) = .ok true)
    (hc : ix.iter.columns.length ≤ 1) :
    (scanAll ix d ds).ok = true ∧
    (scanAll ix d ds).ix.err = ix.err ∧
    (scanAll ix d ds).dest =
      (match ix.iter.scans with | [] => ds | _ :: _ => ix.iter.scans) ∧
    (scanAll ix d ds).allocCap =
      (match ix.iter.scans with | [] => none | _ :: _ => some ix.iter.numRows) := by
  generalize hX : scanAll ix d ds = X
  unfold scanAll at hX
  split at hX
  · next hcond => rw [hp] at hcond; simp at hcond
  · split at hX
    · next hcond => rw [hn] at hcond; cases hcond
    · split at hX
      · next e heq => rw [hb] at heq; cases heq
      · next slice heq =>
        rw [hb] at heq
        injection heq with heq1
        subst heq1
        dsimp only at hX
        split at hX
        · next e hq => rw [hadj] at hq; cases hq
        · next scannable hq =>
          rw [hadj] at hq
          injection hq with hq1
          subst hq1
          split at hX
          · next hcc =>
            simp only [Bool.true_and, decide_eq_true_eq] at hcc
            omega
          · have hfrom := scanAllLoop_scannable_from_none (ix.iter.scans.length + 1)
              (deref sl.sliceElem) ix (Nat.lt_succ_self _)
            have herr := scanAllLoop_scannable_err (ix.iter.scans.length + 1)
              (deref sl.sliceElem) ix none
            split at hX
            · next ix1 hl =>
              rw [hl] at hfrom herr
              subst hX
              cases hs : ix.iter.scans with
              | nil => exact ⟨rfl, herr, rfl, rfl⟩
              | cons r rest => rw [hs] at hfrom; cases hfrom
            · next ix1 cap v hl =>
              rw [hl] at hfrom herr
              subst hX
              cases hs : ix.iter.scans with
              | nil => rw [hs] at hfrom; cases hfrom
              | cons r rest =>
                rw [hs] at hfrom
                injection hfrom with hf
                injection hf with hf1 hf2
                subst hf1
                subst hf2
                exact ⟨rfl, herr, rfl, rfl⟩

/-- Claim C1: for every call to Get, the cursor is closed after scanning
regardless of outcome (one extra Close on every path), and the error recorded
and returned gives precedence to a prior scan/classification error: the
close-time error is surfaced only when no prior error exists, and a recorded
error is never overwritten by Close. -/
theorem get_always_closes_and_prior_error_wins (ix : Iterx) (d : GoValue) :
    (get ix d).2.iter.closeCalls = ix.iter.closeCalls + 1 ∧
    (get ix d).2.err =
      (match (scanAny ix d).2.err with
       | some e => some e
       | none => ix.iter.closeErr.map GoError.driverClose) ∧
    (get ix d).1 =
      (match (scanAny ix d).2.err with
       | some e => some e
       | none =>
         match ix.iter.closeErr.map GoError.driverClose with
         | some e => some e
         | none => if ix.iter.numRows = 0 then some .notFound else none) := by
  obtain ⟨hcol, hnum, hce, hcc⟩ := scanAny_frame ix d
  unfold get Iterx.close Iter.close checkErrAndNotFound
  dsimp only
  refine ⟨by rw [hcc], ?_, ?_⟩
  · cases hE : (scanAny ix d).2.err with
    | none => dsimp only; rw [hce]
    | some e => rfl
  · cases hE : (scanAny ix d).2.err with
    | none =>
      dsimp only
      rw [hce, hnum]
    | some e => rfl

/-- Claim C3: a destination type is classified scannable-single exactly when
a pointer to it implements gocql.Unmarshaler or gocql.UDTUnmarshaler, or it
is not a struct type, or the field resolver reports zero mapped fields for
it. (The classification itself takes no structOnly input: the flag only acts
later, in the drivers, so the equivalence holds for either flag value.) -/
theorem isScannable_iff_capability_or_nonstruct_or_no_fields (m : Mapper) (t : GoType) :
    isScannable m t = true ↔
      ((t.implUnmarshaller = true ∨ t.implUDTUnmarshaller = true) ∨
        t.isStruct = false ∨ m.typeMapIndexLen t = 0) := by
  unfold isScannable
  split
  · next h =>
    simp only [Bool.or_eq_true] at h
    simp [h]
  · next h =>
    simp only [Bool.or_eq_true, not_or, Bool.not_eq_true] at h
    split
    · next h2 =>
      simp only [Bool.not_eq_true'] at h2
      simp [h, h2]
    · next h2 =>
      simp only [Bool.not_eq_true', Bool.not_eq_false] at h2
      simp [h, h2, beq_iff_eq]

/-- Claim C10: the two mode setters each set only their own flag, leave every
other binder field unchanged (error, started state, cached traversal plan,
value-buffer size, resolver, cursor, instrumentation and the other flag), and
compose in either order with the same result, so they can be chained in any
order before Get or Select. In the Go source each returns its receiver
pointer; in this state-passing embedding that is the returned state. -/
theorem mode_setters_set_only_own_flag_and_commute (ix : Iterx) :
    ix.setLenient.lenient = true ∧
    ix.setLenient.structOnly = ix.structOnly ∧
    ix.setLenient.started = ix.started ∧
    ix.setLenient.err = ix.err ∧
    ix.setLenient.fields = ix.fields ∧
    ix.setLenient.valuesLen = ix.valuesLen ∧
    ix.setLenient.iter = ix.iter ∧
    ix.setLenient.mapper = ix.mapper ∧
    ix.setLenient.resolveCount = ix.resolveCount ∧
    ix.setStructOnly.structOnly = true ∧
    ix.setStructOnly.lenient = ix.lenient ∧
    ix.setStructOnly.started = ix.started ∧
    ix.setStructOnly.err = ix.err ∧
    ix.setStructOnly.fields = ix.fields ∧
    ix.setStructOnly.valuesLen = ix.valuesLen ∧
    ix.setStructOnly.iter = ix.iter ∧
    ix.setStructOnly.mapper = ix.mapper ∧
    ix.setStructOnly.resolveCount = ix.resolveCount ∧
    ix.setLenient.setStructOnly = ix.setStructOnly.setLenient ∧
    ix.setLenient.setStructOnly.lenient = true ∧
    ix.setLenient.setStructOnly.structOnly = true := by
  refine ⟨rfl, rfl, rfl, rfl, rfl, rfl, rfl, rfl, rfl, rfl, rfl, rfl, rfl, rfl, rfl,
    rfl, rfl, rfl, rfl, rfl, rfl⟩

theorem get_spec (ix : Iterx) (d : GoValue) :
    (get ix d).2.err =
      (match (scanAny ix d).2.err with
       | some e => some e
       | none => ix.iter.closeErr.map GoError.driverClose) ∧
    (get ix d).1 =
      (match (scanAny ix d).2.err with
       | some e => some e
       | none =>
         match ix.iter.closeErr.map GoError.driverClose with
         | some e => some e
         | none => if ix.iter.numRows = 0 then some .notFound else none) := by
  obtain ⟨hcol, hnum, hce, hcc⟩ := scanAny_frame ix d
  unfold get Iterx.close Iter.close checkErrAndNotFound
  dsimp only
  refine ⟨?_, ?_⟩
  · cases hE : (scanAny ix d).2.err with
    | none => dsimp only; rw [hce]
    | some e => rfl
  · cases hE : (scanAny ix d).2.err with
    | none => dsimp only; rw [hce, hnum]
    | some e => rfl

theorem select_err_spec (ix : Iterx) (d : GoValue) (ds : List Row) :
    (selectAll ix d ds).err =
      (match (scanAll ix d ds).ix.err with
       | some e => some e
       | none => ix.iter.closeErr.map GoError.driverClose) := by
  obtain ⟨hcol, hnum, hce, hcc⟩ := scanAll_frame ix d ds
  unfold selectAll Iterx.close Iter.close
  dsimp only
  cases hE : (scanAll ix d ds).ix.err with
  | none => dsimp only; rw [hce]
  | some e => rfl

theorem scanAny_ne_notFound (ix : Iterx) (d : GoValue)
    (h : ix.err ≠ some GoError.notFound) :
    (scanAny ix d).2.err ≠ some GoError.notFound :=
  scanAny_err_cases ix d (fun o => o ≠ some GoError.notFound) h
    (fun t => by simp) (by simp) (fun t => by simp) (fun k n => by simp)
    (by simp) (fun c t => by simp) (by simp)

theorem scanAll_ne_notFound (ix : Iterx) (d : GoValue) (ds : List Row)
    (h : ix.err ≠ some GoError.notFound) :
    (scanAll ix d ds).ix.err ≠ some GoError.notFound :=
  scanAll_err_cases ix d ds (fun o => o ≠ some GoError.notFound) h
    (fun t => by simp) (by simp) (fun k => by simp) (fun t => by simp)
    (fun k n => by simp) (by simp) (fun c t => by simp) (by simp)

/-- Claim C2: Get returns ErrNotFound exactly when no other error was
recorded and the cursor produced zero rows (any recorded error takes
priority over NotFound); Select never returns NotFound, and for a result
with no recorded error and a clean close it returns no error at all — in
particular a zero-row Select is not an error. -/
theorem get_notFound_iff_and_select_never_notFound (ix : Iterx) (d : GoValue)
    (ds : List Row) (h : ix.err = none) :
    ((get ix d).1 = some GoError.notFound ↔
      ((get ix d).2.err = none ∧ ix.iter.numRows = 0)) ∧
    (selectAll ix d ds).err ≠ some GoError.notFound ∧
    (ix.iter.closeErr = none → (scanAll ix d ds).ix.err = none →
      (selectAll ix d ds).err = none) := by
  obtain ⟨herr, hret⟩ := get_spec ix d
  have hne : (scanAny ix d).2.err ≠ some GoError.notFound :=
    scanAny_ne_notFound ix d (by rw [h]; simp)
  refine ⟨?_, ?_, ?_⟩
  · rw [hret, herr]
    cases hE : (scanAny ix d).2.err with
    | some e =>
      have he : e ≠ GoError.notFound := by
        intro hc
        exact hne (by rw [hE, hc])
      simp [he]
    | none =>
      dsimp only
      cases hce : ix.iter.closeErr with
      | some m => simp
      | none =>
        by_cases hn : ix.iter.numRows = 0 <;> simp [hn]
  · rw [select_err_spec]
    have hne2 : (scanAll ix d ds).ix.err ≠ some GoError.notFound :=
      scanAll_ne_notFound ix d ds (by rw [h]; simp)
    cases hE : (scanAll ix d ds).ix.err with
    | some e =>
      have he : e ≠ GoError.notFound := by
        intro hc
        exact hne2 (by rw [hE, hc])
      simp [he]
    | none =>
      cases hce : ix.iter.closeErr with
      | some m => simp
      | none => simp
  · intro hce hE
    rw [select_err_spec, hE, hce]
    rfl

/-- Witness for C2: on a zero-row result with no recorded error, Get reports
ErrNotFound while Select reports no error. -/
theorem get_notFound_iff_witness :
    (get exBinderEmpty exDestPerson).1 = some GoError.notFound ∧
    (selectAll exBinderEmpty exDestPersonSlice []).err = none := by
  refine ⟨?_, ?_⟩
  · exact (get_notFound_iff_and_select_never_notFound exBinderEmpty exDestPerson [] rfl).1.mpr
      ⟨by decide, rfl⟩
  · exact (get_notFound_iff_and_select_never_notFound exBinderEmpty exDestPersonSlice [] rfl).2.2
      rfl (by decide)

/-- Counterexample for C4: a struct type with zero mapped fields and no
unmarshal capability is scannable-single, yet with structOnly set the verdict
is still overridden to record-mapped — observable in scanAny, which then
takes the StructScan path and reports its missing-field error instead of
performing the single-column scan. The override is therefore not restricted
to capability-caused verdicts. -/
theorem structOnly_override_without_capability_cex :
    isScannable exMapperNone exEmptyStruct = true ∧
    exEmptyStruct.implUnmarshaller = false ∧
    exEmptyStruct.implUDTUnmarshaller = false ∧
    structOnlyAdjust true exEmptyStruct (isScannable exMapperNone exEmptyStruct) =
      .ok false ∧
    (scanAny exBinderStructOnly ⟨.ptr exEmptyStruct, false⟩).2.err =
      some (.missingField "c" "*EmptyT") := by
  refine ⟨rfl, rfl, rfl, rfl, by decide⟩

/-- Claim C4 (amended): when structOnly is set, a scannable-single verdict on
a record type is always overridden to record-mapped — whether the verdict
arose from the unmarshal capability or from zero mapped fields — and
structOnly on a non-record type fails with the struct-only-misuse error
naming the type, in both Get (scanAny) and Select (scanAll). -/
theorem structOnly_forces_record_mapped_or_fails (m : Mapper) (t1 t2 : GoType) (s : Bool)
    (ix : Iterx) (d d2 : GoValue) (b e : GoType) (iu iudt : Bool) (ds : List Row)
    (h1 : t1.isStruct = true) (h2 : t2.isStruct = false)
    (hso : ix.structOnly = true)
    (hd : d.type = .ptr b) (hdn : d.isNil = false) (hb : b.isStruct = false)
    (hd2 : d2.type = .ptr (.slice iu iudt e)) (hd2n : d2.isNil = false)
    (he : (deref e).isStruct = false) :
    structOnlyAdjust true t1 s = .ok false ∧
    structOnlyAdjust true t2 (isScannable m t2) =
      .error (.structOnlyMisuse t2.typeName) ∧
    (scanAny ix d).2.err = some (.structOnlyMisuse b.typeName) ∧
    (scanAll ix d2 ds).ix.err = some (.structOnlyMisuse (deref e).typeName) := by
  have hsc2 : isScannable m t2 = true := by
    unfold isScannable
    rw [h2]
    split
    · rfl
    · simp
  have hscb : isScannable ix.mapper b = true := by
    unfold isScannable
    rw [hb]
    split
    · rfl
    · simp
  have hsce : isScannable ix.mapper (deref e) = true := by
    unfold isScannable
    rw [he]
    split
    · rfl
    · simp
  refine ⟨?_, ?_, ?_, ?_⟩
  · unfold structOnlyAdjust
    cases s with
    | false => simp
    | true => simp [h1]
  · unfold structOnlyAdjust structOnlyError
    rw [hsc2, h2]
    simp
  · unfold scanAny
    rw [hd]
    simp only [GoType.isPtr, Bool.not_true, Bool.false_eq_true, if_false, hdn, deref, hso, hscb]
    unfold structOnlyAdjust structOnlyError
    rw [hb]
    simp
  · unfold scanAll
    rw [hd2]
    simp only [GoType.isPtr, Bool.not_true, Bool.false_eq_true, if_false, hd2n]
    have hbase : baseType (GoType.ptr (GoType.slice iu iudt e)) = .ok (.slice iu iudt e) := rfl
    rw [hbase]
    simp only [GoType.sliceElem, hso, hsce]
    unfold structOnlyAdjust structOnlyError
    rw [he]
    simp

/-- Claim C5: for a destination whose (adjusted) verdict is scannable-single,
a result with more than one column fails with the column-count-mismatch error
in both Get (scanAny) and Select (scanAll) before any row is scanned: the
cursor state is untouched. The statement quantifies over the whole binder
state, in particular over the lenient flag, so the failure is independent of
safe/unsafe mode. -/
theorem scannable_multicolumn_fails_before_scan (ix : Iterx) (d d2 : GoValue)
    (b sl : GoType) (ds : List Row)
    (hd : d.type = .ptr b) (hdn : d.isNil = false)
    (hadj : structOnlyAdjust ix.structOnly b (isScannable ix.mapper b) = .ok true)
    (hd2p : d2.type.isPtr = true) (hd2n : d2.isNil = false)
    (hb2 : baseType d2.type = .ok sl)
    (hadj2 : structOnlyAdjust ix.structOnly (deref sl.sliceElem)
      (isScannable ix.mapper (deref sl.sliceElem)) = .ok true)
    (hc : ix.iter.columns.length > 1) :
    ((scanAny ix d).2.err =
        some (.columnCountMismatch b.kindName ix.iter.columns.length) ∧
      (scanAny ix d).1 = none ∧ (scanAny ix d).2.iter = ix.iter) ∧
    ((scanAll ix d2 ds).ix.err =
        some (.columnCountMismatch (deref sl.sliceElem).kindName ix.iter.columns.length) ∧
      (scanAll ix d2 ds).ok = false ∧ (scanAll ix d2 ds).dest = ds ∧
      (scanAll ix d2 ds).allocCap = none ∧ (scanAll ix d2 ds).ix.iter = ix.iter) := by
  constructor
  · unfold scanAny
    rw [hd]
    simp only [GoType.isPtr, Bool.not_true, Bool.false_eq_true, if_false, hdn, deref]
    rw [hadj]
    simp [hc]
  · unfold scanAll
    simp only [hd2p, Bool.not_true, Bool.false_eq_true, if_false, hd2n]
    rw [hb2]
    dsimp only
    rw [hadj2]
    simp [hc]

/-- Claim C6 (amended): StructScan itself rejects only a non-pointer
destination with its invalid-destination guard error, scanning nothing; the
nil check is performed in scanAny (the entry used by Get), which rejects both
a non-pointer and a nil pointer destination with invalid-destination errors
and scans nothing. -/
theorem pointer_guard_split (ix : Iterx) (d dn : GoValue)
    (hd : d.type.isPtr = false) (hn1 : dn.type.isPtr = true) (hn2 : dn.isNil = true) :
    ((structScan ix d).2.err = some .mustPassPointer ∧
      (structScan ix d).1 = none ∧ (structScan ix d).2.iter = ix.iter ∧
      (structScan ix d).2.started = ix.started) ∧
    ((scanAny ix d).2.err = some (.notAPointer d.type.typeName) ∧
      (scanAny ix d).1 = none ∧ (scanAny ix d).2.iter = ix.iter) ∧
    ((scanAny ix dn).2.err = some .nilPointer ∧
      (scanAny ix dn).1 = none ∧ (scanAny ix dn).2.iter = ix.iter) := by
  refine ⟨?_, ?_, ?_⟩
  · unfold structScan
    simp [hd]
  · unfold scanAny
    simp [hd]
  · unfold scanAny
    simp [hn1, hn2]

/-- Claim C7: on a first StructScan in safe mode with an unmapped column, the
call fails with the missing-field error naming the first such column and the
destination type, the binder does not transition to started and the cursor is
untouched; once a call has reached started, any number of further StructScans
recompute nothing (the traversal plan is resolved exactly once, on the first
call that reaches started, which bumps the resolution count by exactly one),
and started persists across every binder operation. -/
theorem missing_field_fails_and_plan_cached_once
    (ix1 : Iterx) (d1 : GoValue) (f : Nat)
    (h1s : ix1.started = false) (h1l : ix1.lenient = false) (h1p : d1.type.isPtr = true)
    (h1m : missingFields (ix1.mapper.traversalsByName d1.type ix1.iter.columns) = some f)
    (ix2 : Iterx) (d2 : GoValue) (h2 : (structScan ix2 d2).2.started = true) :
    ((structScan ix1 d1).1 = none ∧
     (structScan ix1 d1).2.err =
       some (.missingField (ix1.iter.columns.getD f "") d1.type.typeName) ∧
     (structScan ix1 d1).2.started = false ∧
     (structScan ix1 d1).2.iter = ix1.iter) ∧
    (∀ n, (structScanN n (structScan ix2 d2).2 d2).started = true ∧
          (structScanN n (structScan ix2 d2).2 d2).resolveCount =
            (structScan ix2 d2).2.resolveCount) ∧
    (ix2.started = false → d2.type.isPtr = true →
      (structScan ix2 d2).2.resolveCount = ix2.resolveCount + 1) ∧
    (∀ ix3 d3, ix3.started = true →
      (structScan ix3 d3).2.started = true ∧ (scanAny ix3 d3).2.started = true ∧
      ix3.close.2.started = true ∧ ix3.setLenient.started = true ∧
      ix3.setStructOnly.started = true) := by
  refine ⟨?_, ?_, ?_, ?_⟩
  · have hstart : structScanStart ix1 d1 = (false,
        { iter := ix1.iter, mapper := ix1.mapper, lenient := false,
          structOnly := ix1.structOnly, started := false,
          err := some (.missingField (ix1.iter.columns.getD f "") d1.type.typeName),
          fields := ix1.mapper.traversalsByName d1.type ix1.iter.columns,
          valuesLen := ix1.valuesLen, resolveCount := ix1.resolveCount + 1 }) := by
      unfold structScanStart
      rw [h1s, h1l]
      dsimp only
      rw [h1m]
      rfl
    unfold structScan
    simp only [h1p, Bool.not_true, Bool.false_eq_true, if_false]
    rw [hstart]
    exact ⟨rfl, rfl, rfl, rfl⟩
  · intro n
    exact structScanN_of_started n _ d2 h2
  · intro h3 h4
    exact structScan_resolve_first d2 h3 h4
  · intro ix3 d3 h
    exact ⟨(structScan_of_started d3 h).1, scanAny_started_mono d3 h, h, h, h⟩

/-- Witness for C7: a binder whose resolver cannot map the only column fails
its first StructScan with the missing-field error and stays unstarted, while
a binder that starts successfully keeps a resolution count of one across five
further scans. -/
theorem missing_field_fails_witness :
    (structScan exBinderMissing exDestPerson).2.err =
      some (.missingField "c" "*Person") ∧
    (structScan exBinderMissing exDestPerson).2.started = false ∧
    (structScanN 5 (structScan exBinderRows exDestPerson).2 exDestPerson).resolveCount = 1 ∧
    (structScanN 5 (structScan exBinderRows exDestPerson).2 exDestPerson).started = true := by
  have h := missing_field_fails_and_plan_cached_once exBinderMissing exDestPerson 0
    rfl rfl rfl (by decide) exBinderRows exDestPerson (by decide)
  exact ⟨h.1.2.1, h.1.2.2.1, ((h.2.1 5).2).trans (by decide), (h.2.1 5).1⟩

theorem scanAll_nil (ix : Iterx) (d : GoValue) (ds : List Row)
    (h : ix.iter.scans = []) :
    (scanAll ix d ds).dest = ds ∧ (scanAll ix d ds).allocCap = none := by
  generalize hX : scanAll ix d ds = X
  unfold scanAll at hX
  split at hX
  · subst hX; exact ⟨rfl, rfl⟩
  · split at hX
    · subst hX; exact ⟨rfl, rfl⟩
    · split at hX
      · subst hX; exact ⟨rfl, rfl⟩
      · next sl hsl =>
        dsimp only at hX
        split at hX
        · subst hX; exact ⟨rfl, rfl⟩
        · next scannable hadj =>
          split at hX
          · subst hX; exact ⟨rfl, rfl⟩
          · split at hX
            · subst hX; exact ⟨rfl, rfl⟩
            · next ix1 cap v hl =>
              rw [h] at hl
              dsimp only [List.length_nil] at hl
              rw [scanAllLoop_nil h] at hl
              injection hl with hA hB
              simp at hB

/-- Claim C8: in Select's scan loop the destination accumulator is allocated
only after the first successfully scanned row, with initial capacity taken
from the cursor's NumRows hint; for a zero-row result the destination is left
completely unmodified and no allocation is performed. -/
theorem select_lazy_allocation
    (ix0 : Iterx) (d0 : GoValue) (ds0 : List Row) (h0 : ix0.iter.scans = [])
    (s : Bool) (b : GoType) (fuel : Nat) (r : Row) (ix : Iterx)
    (hstep : (scanStep s b ix).1 = some r)
    (ix1 : Iterx) (d : GoValue) (ds : List Row) (sl : GoType)
    (hd : d.type.isPtr = true) (hn : d.isNil = false) (hb : baseType d.type = .ok sl)
    (hadj : structOnlyAdjust ix1.structOnly (deref sl.sliceElem)
      (isScannable ix1.mapper (deref sl.sliceElem)) = .ok true)
    (hc : ix1.iter.columns.length ≤ 1) :
    ((scanAll ix0 d0 ds0).dest = ds0 ∧ (scanAll ix0 d0 ds0).allocCap = none) ∧
    ((scanAllLoop (fuel + 1) s b ix none).2.map Prod.fst = some ix.iter.numRows) ∧
    ((scanAll ix1 d ds).allocCap =
      (match ix1.iter.scans with | [] => none | _ :: _ => some ix1.iter.numRows)) := by
  refine ⟨scanAll_nil ix0 d0 ds0 h0, ?_, ?_⟩
  · rw [scanAllLoop_alloc_cap hstep, (scanStep_frame s b ix).2.1]
  · exact (scanAll_scannable ix1 d ds sl hd hn hb hadj hc).2.2.2

/-- Witness for C8: a zero-row Select leaves the destination untouched with
no allocation, while a two-row cursor allocates with capacity hint 2. -/
theorem select_lazy_allocation_witness :
    ((scanAll exBinderEmpty exDestPersonSlice [[9]]).dest = [[9]] ∧
      (scanAll exBinderEmpty exDestPersonSlice [[9]]).allocCap = none) ∧
    ((scanAllLoop 1 true exInt exBinderRows none).2.map Prod.fst = some 2) ∧
    ((scanAll exBinderRows exDestIntSlice []).allocCap = some 2) := by
  have h := select_lazy_allocation exBinderEmpty exDestPersonSlice [[9]] rfl
    true exInt 0 [1] exBinderRows (by decide)
    exBinderRows exDestIntSlice [] (.slice false false exInt)
    rfl rfl rfl rfl (by decide)
  exact ⟨h.1, h.2.1, h.2.2⟩

/-- Claim C9: once the scan loop has appended at least one row, a later scan
failure still overwrites the destination with the partial results before the
error is returned (Select is not atomic on error), whereas a validation
failure before the loop leaves both the destination and the cursor untouched. -/
theorem select_nonatomic_write_and_validation_frame
    (ix : Iterx) (d : GoValue) (ds : List Row) (sl : GoType)
    (hd : d.type.isPtr = true) (hn : d.isNil = false) (hb : baseType d.type = .ok sl)
    (hadj : structOnlyAdjust ix.structOnly (deref sl.sliceElem)
      (isScannable ix.mapper (deref sl.sliceElem)) = .ok true)
    (hc : ix.iter.columns.length ≤ 1) (herr : ix.err = none)
    (ix2 : Iterx) (d2 : GoValue) (ds2 : List Row)
    (hok : (scanAll ix2 d2 ds2).ok = false) :
    ((selectAll ix d ds).dest =
      (match ix.iter.scans with | [] => ds | _ :: _ => ix.iter.scans) ∧
     (selectAll ix d ds).err = ix.iter.closeErr.map GoError.driverClose) ∧
    ((scanAll ix2 d2 ds2).dest = ds2 ∧ (scanAll ix2 d2 ds2).allocCap = none ∧
     (scanAll ix2 d2 ds2).ix.iter = ix2.iter) := by
  have hs := scanAll_scannable ix d ds sl hd hn hb hadj hc
  refine ⟨⟨hs.2.2.1, ?_⟩, scanAll_false_frame ix2 d2 ds2 hok⟩
  rw [select_err_spec, hs.2.1, herr]

/-- Witness for C9: a Select that scans two rows and then hits a close-time
driver error still returns the two rows in the destination alongside the
error, while a Select on a non-slice destination (validation failure) leaves
destination and cursor untouched. -/
theorem select_nonatomic_write_witness :
    ((selectAll exBinderRowsErr exDestIntSlice []).dest = [[1], [2]] ∧
     (selectAll exBinderRowsErr exDestIntSlice []).err =
       some (.driverClose "boom")) ∧
    ((scanAll exBinderEmpty exDestPerson [[7]]).dest = [[7]] ∧
     (scanAll exBinderEmpty exDestPerson [[7]]).ix.iter = exBinderEmpty.iter) := by
  have h := select_nonatomic_write_and_validation_frame exBinderRowsErr exDestIntSlice []
    (.slice false false exInt) rfl rfl rfl rfl (by decide) rfl
    exBinderEmpty exDestPerson [[7]] (by decide)
  exact ⟨⟨h.1.1, h.1.2⟩, ⟨h.2.1, h.2.2.2⟩⟩

/-- Witness for C4 (amended): structOnly forces a struct to record-mapped,
and rejects a scalar with the struct-only-misuse error in both drivers. -/
theorem structOnly_forces_record_mapped_witness :
    structOnlyAdjust true exPerson true = .ok false ∧
    structOnlyAdjust true exInt (isScannable exMapperAll exInt) =
      .error (.structOnlyMisuse "int") ∧
    (scanAny exBinderSO2 exDestInt).2.err = some (.structOnlyMisuse "int") ∧
    (scanAll exBinderSO2 exDestIntSlice []).ix.err = some (.structOnlyMisuse "int") :=
  structOnly_forces_record_mapped_or_fails exMapperAll exPerson exInt true
    exBinderSO2 exDestInt exDestIntSlice exInt exInt false false []
    rfl rfl rfl rfl rfl rfl rfl rfl rfl

/-- Witness for C5: a two-column result against a scalar destination fails
with the column-count-mismatch error in Get and Select even with the lenient
flag set, leaving the cursor untouched. -/
theorem scannable_multicolumn_witness :
    (scanAny exBinderTwoCols exDestInt).2.err =
      some (.columnCountMismatch "int" 2) ∧
    (scanAny exBinderTwoCols exDestInt).2.iter = exBinderTwoCols.iter ∧
    (scanAll exBinderTwoCols exDestIntSlice []).ix.err =
      some (.columnCountMismatch "int" 2) ∧
    (scanAll exBinderTwoCols exDestIntSlice []).ix.iter = exBinderTwoCols.iter := by
  have h := scannable_multicolumn_fails_before_scan exBinderTwoCols exDestInt
    exDestIntSlice exInt (.slice false false exInt) []
    rfl rfl rfl rfl rfl rfl rfl (by decide)
  exact ⟨h.1.1, h.1.2.2, h.2.1, h.2.2.2.2.2⟩

/-- Counterexample for C6: a nil pointer destination passed directly to
StructScan is not rejected by its guard: the resulting error is the traversal
error, not an invalid-destination error, and the binder even transitions to
started before failing. -/
theorem structScan_nil_pointer_not_rejected_cex :
    (structScan exBinderRows ⟨.ptr exPerson, true⟩).2.err = some .notAStruct ∧
    (structScan exBinderRows ⟨.ptr exPerson, true⟩).2.err ≠ some .nilPointer ∧
    (structScan exBinderRows ⟨.ptr exPerson, true⟩).2.err ≠ some .mustPassPointer ∧
    (structScan exBinderRows ⟨.ptr exPerson, true⟩).2.started = true := by decide

/-- Witness for C6 (amended): a struct value (non-pointer) is rejected by
StructScan and by scanAny; a nil struct pointer is rejected by scanAny. -/
theorem pointer_guard_split_witness :
    (structScan exBinderEmpty ⟨exPerson, false⟩).2.err = some .mustPassPointer ∧
    (scanAny exBinderEmpty ⟨exPerson, false⟩).2.err =
      some (.notAPointer "Person") ∧
    (scanAny exBinderEmpty ⟨.ptr exPerson, true⟩).2.err = some .nilPointer := by
  have h := pointer_guard_split exBinderEmpty ⟨exPerson, false⟩ ⟨.ptr exPerson, true⟩
    rfl rfl rfl
  exact ⟨h.1.1, h.2.1.1, h.2.2.1⟩

end Gocqlx
